import Mathlib

/-!
Verification of the weflutgrid aggregation/tile pipeline.

Shallow embedding of the core functions of the repository:
* `scripts/download_postcodes.js` — the UK Land Registry ETL
  (price filter, row classification, per-cell accumulators, median,
  confidence formula, database upsert);
* `scripts/setup-working.js` / the SQL schema — the percentile
  normalization CASE expression;
* the tile handlers — zoom→H3-level table, request validation,
  per-cell geometry generation and ring closure.

Prices, coordinates and cut points are modelled as rationals (ℚ);
the confidence formula, which uses `Math.log10`, over the reals (ℝ);
dates as integers (epoch milliseconds or days — only their order matters).
The H3 library and the postcode lookup table are external pure functions
and enter the model as parameters.
-/

namespace Weflut

/-! ### ETL: scripts/download_postcodes.js -/

/-- `const MAX_ROWS = ... : 100000` — default row limit of one ETL run. -/
def MAX_ROWS : ℕ := 100000

/-- `const H3_LEVEL = 10` — target resolution of the ETL run. -/
def H3_LEVEL : ℕ := 10

/-- The median used by `upsertToDatabase`:
`sortedPrices = data.prices.sort((a, b) => a - b)` followed by
`sortedPrices[Math.floor(sortedPrices.length / 2)]`. -/
def etlMedian (prices : List ℚ) : ℚ :=
  (prices.insertionSort (· ≤ ·)).getD (prices.length / 2) 0

/-- The price filter of `processPropertyData`:
`const price = parseFloat(row.price); if (!price || price < 10000 || price > 10000000)`.
`none` models an unparseable price (`parseFloat` returned `NaN`);
`!price` is additionally true for a parsed price of `0`. -/
def priceRejected : Option ℚ → Prop
  | none => True
  | some p => p = 0 ∨ p < 10000 ∨ p > 10000000

instance : DecidablePred priceRejected := fun p => by
  cases p <;> unfold priceRejected <;> infer_instance

/-- A latitude/longitude pair from the postcode lookup. -/
structure Coord where
  lat : ℚ
  lng : ℚ
deriving DecidableEq

/-- One parsed CSV row, restricted to the fields `processPropertyData` reads.
`price = none` models an unparseable price; `postcode = none` a missing
(empty) postcode, for which `lookup` returns `null` before consulting the
cache. -/
structure Row where
  price : Option ℚ
  postcode : Option String
  date : ℤ
  region : String
deriving DecidableEq

/-- Outcome of one row of `processPropertyData`: skipped by the price
filter, dropped for lack of a geocode, or geocoded into the accumulator of
cell `cell` with its price and date. -/
inductive Outcome where
  | skipped
  | noGeocode
  | geocoded (cell : String) (price : ℚ) (date : ℤ)
deriving DecidableEq

/-- Row classification of `processPropertyData`. `lookup` is the preloaded
postcode table (`PostcodeLookup.lookup`, normalization included) and
`cellFor` abstracts `h3.latLngToCell(lat, lng, H3_LEVEL)`. -/
def classify (lookup : String → Option Coord) (cellFor : Coord → String)
    (r : Row) : Outcome :=
  match r.price with
  | none => .skipped
  | some p =>
    if p = 0 ∨ p < 10000 ∨ p > 10000000 then .skipped
    else
      match r.postcode.bind lookup with
      | none => .noGeocode
      | some c => .geocoded (cellFor c) p r.date

/-- The run-statistics counters of `UKLandRegistryETL.constructor` that
`processPropertyData` updates (`inserted`/`updated` belong to the upsert
phase and are not modelled here). -/
structure Stats where
  processed : ℕ
  skipped : ℕ
  geocoded : ℕ
  noGeocode : ℕ
  errors : ℕ
deriving DecidableEq

def Stats.init : Stats := ⟨0, 0, 0, 0, 0⟩

/-- Counter updates of one row: `skipped++` alone for a filtered price;
`noGeocode++` and `processed++` for a geocode miss; `geocoded++` and
`processed++` for a geocoded row. -/
def stepStats (s : Stats) : Outcome → Stats
  | .skipped => { s with skipped := s.skipped + 1 }
  | .noGeocode => { s with noGeocode := s.noGeocode + 1, processed := s.processed + 1 }
  | .geocoded _ _ _ => { s with geocoded := s.geocoded + 1, processed := s.processed + 1 }

/-- Fold of `processPropertyData` over the rows actually consumed. -/
def runStats (lookup : String → Option Coord) (cellFor : Coord → String)
    (rows : List Row) : Stats :=
  rows.foldl (fun s r => stepStats s (classify lookup cellFor r)) Stats.init

/-- The contribution a row makes to the `h3Groups` accumulators:
`some (cell, price, date)` exactly for geocoded rows. -/
def contrib (lookup : String → Option Coord) (cellFor : Coord → String)
    (r : Row) : Option (String × ℚ × ℤ) :=
  match classify lookup cellFor r with
  | .geocoded cell p d => some (cell, p, d)
  | _ => none

/-- All accumulator contributions of a run, in row order. -/
def contributions (lookup : String → Option Coord) (cellFor : Coord → String)
    (rows : List Row) : List (String × ℚ × ℤ) :=
  rows.filterMap (contrib lookup cellFor)

/-- The price list of one cell's accumulator (`h3Groups.get(h3Index).prices`). -/
def cellPrices (lookup : String → Option Coord) (cellFor : Coord → String)
    (rows : List Row) (cell : String) : List ℚ :=
  ((contributions lookup cellFor rows).filter (fun t => t.1 = cell)).map
    (fun t => t.2.1)

/-- Fold invariant of the run-statistics counters: no branch of
`processPropertyData` touches `errors`; `processed` grows exactly with
`geocoded + noGeocode`; each row lands in exactly one of the three
counters; `geocoded` grows exactly with the accumulator contributions. -/
theorem runStats_deltas (lookup : String → Option Coord) (cellFor : Coord → String)
    (rows : List Row) (s : Stats) :
    (rows.foldl (fun t r => stepStats t (classify lookup cellFor r)) s).errors = s.errors
    ∧ (rows.foldl (fun t r => stepStats t (classify lookup cellFor r)) s).processed
        + s.geocoded + s.noGeocode
      = s.processed
        + (rows.foldl (fun t r => stepStats t (classify lookup cellFor r)) s).geocoded
        + (rows.foldl (fun t r => stepStats t (classify lookup cellFor r)) s).noGeocode
    ∧ (rows.foldl (fun t r => stepStats t (classify lookup cellFor r)) s).skipped
        + (rows.foldl (fun t r => stepStats t (classify lookup cellFor r)) s).geocoded
        + (rows.foldl (fun t r => stepStats t (classify lookup cellFor r)) s).noGeocode
      = s.skipped + s.geocoded + s.noGeocode + rows.length
    ∧ (rows.foldl (fun t r => stepStats t (classify lookup cellFor r)) s).geocoded
      = s.geocoded + (contributions lookup cellFor rows).length := by
  induction rows generalizing s with
  | nil => simp [contributions]
  | cons r rs ih =>
    have h := ih (stepStats s (classify lookup cellFor r))
    cases hc : classify lookup cellFor r with
    | skipped =>
      simp only [List.foldl_cons, hc, stepStats, contributions,
        List.filterMap_cons, contrib, List.length_cons] at h ⊢
      omega
    | noGeocode =>
      simp only [List.foldl_cons, hc, stepStats, contributions,
        List.filterMap_cons, contrib, List.length_cons] at h ⊢
      omega
    | geocoded cell p d =>
      simp only [List.foldl_cons, hc, stepStats, contributions,
        List.filterMap_cons, contrib, List.length_cons] at h ⊢
      omega

/-- **C10.** Within one ETL run, each input row up to the row limit is
counted in exactly one of skipped / noGeocode / geocoded (and the `errors`
counter stays 0 in the exception-free model); `processed` always equals
`geocoded + noGeocode`, so price-filtered rows are never counted as
processed; and only geocoded rows contribute a price and date to any cell
accumulator (the contribution count equals the `geocoded` counter, and a
contribution exists only for a `geocoded` classification). -/
theorem etl_stats_accounting (lookup : String → Option Coord)
    (cellFor : Coord → String) (rows : List Row) :
    (runStats lookup cellFor (rows.take MAX_ROWS)).errors = 0
    ∧ (runStats lookup cellFor (rows.take MAX_ROWS)).processed
      = (runStats lookup cellFor (rows.take MAX_ROWS)).geocoded
        + (runStats lookup cellFor (rows.take MAX_ROWS)).noGeocode
    ∧ (runStats lookup cellFor (rows.take MAX_ROWS)).skipped
        + (runStats lookup cellFor (rows.take MAX_ROWS)).geocoded
        + (runStats lookup cellFor (rows.take MAX_ROWS)).noGeocode
      = (rows.take MAX_ROWS).length
    ∧ (contributions lookup cellFor (rows.take MAX_ROWS)).length
      = (runStats lookup cellFor (rows.take MAX_ROWS)).geocoded
    ∧ ∀ r ∈ rows, ∀ cell p d, contrib lookup cellFor r = some (cell, p, d) →
        classify lookup cellFor r = .geocoded cell p d := by
  have h := runStats_deltas lookup cellFor (rows.take MAX_ROWS) Stats.init
  simp only [runStats, Stats.init] at h ⊢
  refine ⟨h.1, by omega, by omega, by omega, ?_⟩
  intro r _ cell p d hcb
  cases hcl : classify lookup cellFor r with
  | skipped => simp [contrib, hcl] at hcb
  | noGeocode => simp [contrib, hcl] at hcb
  | geocoded c0 p0 d0 =>
    simp only [contrib, hcl, Option.some.injEq, Prod.mk.injEq] at hcb
    obtain ⟨rfl, rfl, rfl⟩ := hcb
    rfl

/-- **C10 (witness).** A concrete one-row run through `etl_stats_accounting`:
a geocoded row's contribution is exactly its geocoded classification. -/
theorem etl_stats_accounting_witness :
    classify (fun _ => some ⟨51, 0⟩) (fun _ => "cA")
      ⟨some 250000, some "P1", 7, "L"⟩ = .geocoded "cA" 250000 7 :=
  (etl_stats_accounting (fun _ => some ⟨51, 0⟩) (fun _ => "cA")
      [⟨some 250000, some "P1", 7, "L"⟩]).2.2.2.2
    ⟨some 250000, some "P1", 7, "L"⟩ (by simp) "cA" 250000 7 (by decide)

/-- **C1 (counterexample).** For the cell whose two contributing prices are
850000 and 920000 the persisted `metric_value` is 920000, not 850000:
`sortedPrices[Math.floor(sortedPrices.length / 2)]` selects the
upper-middle element of an even-length sorted list. -/
theorem etlMedian_even_cex :
    etlMedian [850000, 920000] = 920000 ∧ etlMedian [850000, 920000] ≠ 850000 := by
  constructor <;> decide

/-- **C1 (amended).** For an even number of contributing prices the
aggregated `metric_value` is the **upper**-middle element of the sorted
price list: for a sorted `[a, b, c, d]` it is `c` (not `b`, and not
`(b+c)/2`), and for a sorted pair `[a, b]` it is `b`. -/
theorem etlMedian_even_upper_middle (a b c d : ℚ)
    (hab : a ≤ b) (hbc : b ≤ c) (hcd : c ≤ d) :
    etlMedian [a, b, c, d] = c ∧ etlMedian [a, b] = b := by
  have hs4 : List.Sorted (· ≤ ·) [a, b, c, d] :=
    List.Sorted.cons hab (List.Sorted.cons hbc
      (List.Sorted.cons hcd (List.sorted_singleton d)))
  have hs2 : List.Sorted (· ≤ ·) [a, b] :=
    List.Sorted.cons hab (List.sorted_singleton b)
  constructor
  · show (List.insertionSort (· ≤ ·) [a, b, c, d]).getD ([a, b, c, d].length / 2) 0 = c
    rw [hs4.insertionSort_eq]
    norm_num
  · show (List.insertionSort (· ≤ ·) [a, b]).getD ([a, b].length / 2) 0 = b
    rw [hs2.insertionSort_eq]
    norm_num

/-- **C1 (amended, witness).** The amended median at the concrete sorted
lists `[1, 2, 3, 4]` and `[1, 2]`. -/
theorem etlMedian_even_upper_middle_witness :
    etlMedian [1, 2, 3, 4] = 3 ∧ etlMedian [(1 : ℚ), 2] = 2 :=
  etlMedian_even_upper_middle 1 2 3 4 (by norm_num) (by norm_num) (by norm_num)

/-- **C2 (counterexample).** A transaction priced exactly at the configured
floor 10000 is *not* rejected by the price filter (the code compares with
strict `<` and `>`), although the claim says a price `≤` the floor is
rejected: with a working geocode it is classified `geocoded`, not
`skipped`. -/
theorem price_filter_boundary_cex :
    (10000 : ℚ) ≤ 10000 ∧
      classify (fun _ => some ⟨51, 0⟩) (fun _ => "cellA")
          ⟨some 10000, some "AB12CD", 0, "London"⟩
        = .geocoded "cellA" 10000 0 := by
  constructor
  · norm_num
  · decide

/-- **C2 (amended).** A transaction is counted as skipped by the price
filter exactly when its parsed price is rejected — unparseable, zero,
strictly below the floor 10000, or strictly above the ceiling 10000000
(boundary prices pass); a skipped transaction contributes to no cell's
accumulator; and every transaction with price strictly inside the range is
never classified as skipped. -/
theorem price_filter_amended (lookup : String → Option Coord)
    (cellFor : Coord → String) (r : Row) :
    (classify lookup cellFor r = .skipped ↔ priceRejected r.price)
    ∧ (classify lookup cellFor r = .skipped → contrib lookup cellFor r = none)
    ∧ (∀ p : ℚ, r.price = some p → 10000 < p → p < 10000000 →
        classify lookup cellFor r ≠ .skipped) := by
  have hiff : classify lookup cellFor r = .skipped ↔ priceRejected r.price := by
    cases hp : r.price with
    | none => simp [classify, hp, priceRejected]
    | some p =>
      by_cases hr : p = 0 ∨ p < 10000 ∨ p > 10000000
      · simp [classify, hp, hr, priceRejected]
      · cases hb : r.postcode.bind lookup <;>
          simp [classify, hp, hr, priceRejected, hb]
  refine ⟨hiff, ?_, ?_⟩
  · intro hsk
    simp only [contrib, hsk]
  · intro p hp h1 h2 hsk
    rw [hiff, hp] at hsk
    simp only [priceRejected] at hsk
    rcases hsk with h | h | h <;> linarith

/-- **C2 (amended, witness).** A concrete transaction priced 10001 —
strictly inside the accepted range — is not skipped. -/
theorem price_filter_amended_witness :
    classify (fun _ => some ⟨51, 0⟩) (fun _ => "cellB")
        ⟨some 10001, some "PC1", 0, "r"⟩ ≠ .skipped :=
  (price_filter_amended (fun _ => some ⟨51, 0⟩) (fun _ => "cellB")
      ⟨some 10001, some "PC1", 0, "r"⟩).2.2 10001 rfl (by norm_num) (by norm_num)

/-! ### Confidence formula of `upsertToDatabase` -/

/-- `const sampleFactor = Math.min(1, Math.log10(data.count + 1) / 2)`. -/
noncomputable def sampleFactor (count : ℕ) : ℝ := min 1 (Real.logb 10 (count + 1) / 2)

/-- `const recencyFactor = Math.max(0.3, 1 - (recencyDays / 365))`, where
`recencyDays = (Date.now() - lastSeen.getTime()) / (1000*3600*24)` is
negative when `lastSeen` lies in the future. -/
noncomputable def recencyFactor (recencyDays : ℝ) : ℝ := max 0.3 (1 - recencyDays / 365)

/-- `const confidence = sampleFactor * recencyFactor` — the persisted
confidence score; the code applies no further clamp. -/
noncomputable def confidenceETL (count : ℕ) (recencyDays : ℝ) : ℝ :=
  sampleFactor count * recencyFactor recencyDays

/-- **C3 (counterexample).** The stored confidence is not clamped to
[0, 1]: for a cell with 99 transactions whose `lastSeen` lies 365 days in
the future (`recencyDays = -365`), the persisted confidence is 2 > 1. -/
theorem confidence_clamp_cex :
    confidenceETL 99 (-365) = 2 ∧ 1 < confidenceETL 99 (-365) := by
  have hlog : Real.logb 10 (((99 : ℕ) : ℝ) + 1) = 2 := by
    norm_num
    rw [show (100 : ℝ) = 10 ^ (2 : ℕ) by norm_num, Real.logb_pow,
      Real.logb_self_eq_one (by norm_num)]
    norm_num
  have hs : sampleFactor 99 = 1 := by
    unfold sampleFactor
    rw [hlog]
    norm_num
  have hr : recencyFactor (-365) = 2 := by
    unfold recencyFactor
    norm_num
  constructor
  · unfold confidenceETL
    rw [hs, hr]
    norm_num
  · unfold confidenceETL
    rw [hs, hr]
    norm_num

/-- **C3 (amended).** The persisted confidence equals
`sampleFactor × recencyFactor` (K = 2, Rmin = 0.3) with no final clamp, and
for every count ≥ 1 and every non-future `lastSeen` (`recencyDays ≥ 0`) it
lies in (0, 1]; only a future-dated `lastSeen` can push it above 1 (see the
counterexample). -/
theorem confidence_bounds (count : ℕ) (recencyDays : ℝ)
    (hc : 1 ≤ count) (hd : 0 ≤ recencyDays) :
    confidenceETL count recencyDays = sampleFactor count * recencyFactor recencyDays
    ∧ 0 < confidenceETL count recencyDays
    ∧ confidenceETL count recencyDays ≤ 1 := by
  have hs1 : sampleFactor count ≤ 1 := min_le_left _ _
  have hs0 : 0 < sampleFactor count := by
    have h1 : (1 : ℝ) < (count : ℝ) + 1 := by
      have h1c : (1 : ℝ) ≤ (count : ℝ) := by exact_mod_cast hc
      linarith
    have hpos := Real.logb_pos (by norm_num : (1 : ℝ) < 10) h1
    have hhalf : 0 < Real.logb 10 ((count : ℝ) + 1) / 2 := by linarith
    exact lt_min one_pos hhalf
  have hr1 : recencyFactor recencyDays ≤ 1 := by
    unfold recencyFactor
    apply max_le
    · norm_num
    · have hdd : 0 ≤ recencyDays / 365 := by positivity
      linarith
  have hr0 : 0 < recencyFactor recencyDays := by
    have h3 : (0.3 : ℝ) ≤ recencyFactor recencyDays := le_max_left _ _
    linarith
  refine ⟨rfl, mul_pos hs0 hr0, ?_⟩
  calc confidenceETL count recencyDays
      = sampleFactor count * recencyFactor recencyDays := rfl
    _ ≤ 1 * 1 := mul_le_mul hs1 hr1 (le_of_lt hr0) (by norm_num)
    _ = 1 := by norm_num

/-- **C3 (amended, witness).** The amended confidence bounds at the
concrete cell count 5 and recency 10 days. -/
theorem confidence_bounds_witness :
    confidenceETL 5 10 = sampleFactor 5 * recencyFactor 10
    ∧ 0 < confidenceETL 5 10 ∧ confidenceETL 5 10 ≤ 1 :=
  confidence_bounds 5 10 (by norm_num) (by norm_num)

/-! ### Percentile Normalizer: the CASE expression of
`heatmap_with_percentiles` (setup-working.js) and `compute_percentiles`
(SQL schema) -/

/-- `CASE WHEN v <= p10 THEN 0.1 WHEN v <= p25 THEN 0.25 WHEN v <= p50
THEN 0.5 WHEN v <= p75 THEN 0.75 WHEN v <= p90 THEN 0.9 ELSE 1.0 END`
applied to a cell's weighted metric value, given the five percentile cut
points. -/
def normalizedValue (p10 p25 p50 p75 p90 v : ℚ) : ℚ :=
  if v ≤ p10 then 0.1
  else if v ≤ p25 then 0.25
  else if v ≤ p50 then 0.5
  else if v ≤ p75 then 0.75
  else if v ≤ p90 then 0.9
  else 1

/-- **C4.** The normalized value is assigned by the first cut point the
cell's weighted value falls at or below, so it always lies in
{0.1, 0.25, 0.5, 0.75, 0.9, 1.0}; and for any two values `v1 < v2` under
the same cut points the assignment is monotone:
`normalized_value v1 ≤ normalized_value v2`. -/
theorem normalized_value_buckets_mono (p10 p25 p50 p75 p90 : ℚ) :
    (∀ v, normalizedValue p10 p25 p50 p75 p90 v
        ∈ ({0.1, 0.25, 0.5, 0.75, 0.9, 1} : Set ℚ))
    ∧ ∀ v1 v2, v1 < v2 →
        normalizedValue p10 p25 p50 p75 p90 v1
          ≤ normalizedValue p10 p25 p50 p75 p90 v2 := by
  constructor
  · intro v
    unfold normalizedValue
    split_ifs <;> simp
  · intro v1 v2 h12
    unfold normalizedValue
    split_ifs <;> linarith

/-- **C4 (witness).** Monotonicity at the concrete cut points 1‥5 and the
value pair 0 < 6 (buckets 0.1 and 1.0). -/
theorem normalized_value_mono_witness :
    normalizedValue 1 2 3 4 5 0 ≤ normalizedValue 1 2 3 4 5 6 :=
  (normalized_value_buckets_mono 1 2 3 4 5).2 0 6 (by norm_num)

/-! ### Upsert: the `INSERT ... ON CONFLICT` of `upsertToDatabase` -/

/-- One `heatmap_cells` row under a fixed (h3_index, metric_source,
metric_type) key, restricted to the per-run value fields (the key columns,
`h3_level`, region tags and `updated_at` are omitted). -/
structure CellRow where
  metricValue : ℚ
  transactionCount : ℕ
  confidenceScore : ℚ
  firstSeen : ℤ
  lastSeen : ℤ
deriving DecidableEq

/-- `INSERT INTO heatmap_cells ... ON CONFLICT (h3_index, metric_source,
metric_type) DO UPDATE SET metric_value = EXCLUDED.metric_value,
transaction_count = ..., confidence_score = ..., last_seen = ...`:
with no stored row the fresh row is inserted whole; on conflict only the
four listed fields are overwritten — `first_seen` is not in the update
list and keeps the previously stored value. -/
def upsertCell (old : Option CellRow) (fresh : CellRow) : CellRow :=
  match old with
  | none => fresh
  | some prev =>
    { prev with
      metricValue := fresh.metricValue
      transactionCount := fresh.transactionCount
      confidenceScore := fresh.confidenceScore
      lastSeen := fresh.lastSeen }

/-- **C5 (counterexample).** The upsert is not a full replace: with a prior
row (firstSeen = 10) stored under the same key and a fresh aggregate whose
firstSeen is 30, the persisted firstSeen after the upsert is still 10, not
the freshly computed 30. -/
theorem upsert_first_seen_cex :
    (upsertCell (some ⟨100, 1, 1/2, 10, 20⟩) ⟨200, 2, 3/4, 30, 40⟩).firstSeen = 10
    ∧ (upsertCell (some ⟨100, 1, 1/2, 10, 20⟩) ⟨200, 2, 3/4, 30, 40⟩).firstSeen
      ≠ (⟨200, 2, 3/4, 30, 40⟩ : CellRow).firstSeen := by
  constructor <;> decide

/-- **C5 (amended).** After the upsert under a given (cellId, source,
metric type) key, the metric value, transaction count, confidence score
and last-seen all equal this run's freshly computed values regardless of
the prior row; first-seen keeps the previously stored value when a prior
row existed and is the fresh value only on initial insert. -/
theorem upsert_replaces_except_first_seen (old : Option CellRow) (fresh : CellRow) :
    (upsertCell old fresh).metricValue = fresh.metricValue
    ∧ (upsertCell old fresh).transactionCount = fresh.transactionCount
    ∧ (upsertCell old fresh).confidenceScore = fresh.confidenceScore
    ∧ (upsertCell old fresh).lastSeen = fresh.lastSeen
    ∧ (upsertCell old fresh).firstSeen
      = (match old with
         | none => fresh.firstSeen
         | some prev => prev.firstSeen) := by
  cases old <;> simp [upsertCell]

/-! ### Tile Query Engine: the zoom→H3 tables and the tile handler -/

/-- The `ZOOM_TO_H3` object of the percentile-view tile handler: a partial
lookup keyed by zoom; `none` models an absent key. -/
def ZOOM_TO_H3 : ℕ → Option ℕ
  | 0 => some 2 | 1 => some 2 | 2 => some 3 | 3 => some 4 | 4 => some 4
  | 5 => some 5 | 6 => some 6 | 7 => some 7 | 8 => some 7 | 9 => some 8
  | 10 => some 8 | 11 => some 9 | 12 => some 9 | 13 => some 10
  | 14 => some 10 | 15 => some 10 | 16 => some 11 | 17 => some 11
  | 18 => some 11 | 19 => some 12 | 20 => some 12
  | _ => none

/-- The `ZOOM_TO_H3_LEVEL` record of `src/config` (`Record<number, number>`
with the same 21 entries). -/
def ZOOM_TO_H3_LEVEL : ℕ → Option ℕ
  | 0 => some 2 | 1 => some 2 | 2 => some 3 | 3 => some 4 | 4 => some 4
  | 5 => some 5 | 6 => some 6 | 7 => some 7 | 8 => some 7 | 9 => some 8
  | 10 => some 8 | 11 => some 9 | 12 => some 9 | 13 => some 10
  | 14 => some 10 | 15 => some 10 | 16 => some 11 | 17 => some 11
  | 18 => some 11 | 19 => some 12 | 20 => some 12
  | _ => none

/-- **C6.** The zoom→resolution table is total over the supported zoom
range [0, 20] and monotone non-decreasing in zoom (coarser, numerically
smaller H3 level at low zoom; finer at high zoom); the two copies of the
table (tile handler and config) agree. -/
theorem zoom_to_h3_total_mono :
    ∀ z1 < 21, ∀ z2 < 21, z1 ≤ z2 →
      (ZOOM_TO_H3 z1).isSome
      ∧ (ZOOM_TO_H3 z1).getD 0 ≤ (ZOOM_TO_H3 z2).getD 0
      ∧ ZOOM_TO_H3 z1 = ZOOM_TO_H3_LEVEL z1 := by
  decide

/-- **C6 (witness).** The table at the concrete zooms 5 ≤ 12. -/
theorem zoom_to_h3_total_mono_witness :
    (ZOOM_TO_H3 5).isSome
    ∧ (ZOOM_TO_H3 5).getD 0 ≤ (ZOOM_TO_H3 12).getD 0
    ∧ ZOOM_TO_H3 5 = ZOOM_TO_H3_LEVEL 5 :=
  zoom_to_h3_total_mono 5 (by decide) 12 (by decide) (by decide)

/-- `const h3Level = ZOOM_TO_H3[zoom] || 8` — an absent key (zoom below 0
or above 20) falls back to level 8. -/
def zoomLevelFor (zoom : ℤ) : ℕ :=
  if zoom < 0 then 8 else (ZOOM_TO_H3 zoom.toNat).getD 8

/-- Outcome of the tile handler before any storage access: either the 400
rejection (`isNaN` on any of z, x, y) or the query phase carrying the
selected H3 level. -/
inductive TilePhase where
  | reject400
  | query (h3Level : ℕ)
deriving DecidableEq

/-- The validation prefix of the tile handler:
`const zoom = parseInt(z); ...; if (isNaN(zoom) || isNaN(tileX) ||
isNaN(tileY)) return res.status(400)...`, then
`const h3Level = ZOOM_TO_H3[zoom] || 8` and the storage query.
`none` models a parameter on which `parseInt` returned `NaN`. -/
def tileHandlerPhase1 (z x y : Option ℤ) : TilePhase :=
  match z, x, y with
  | some zoom, some _, some _ => .query (zoomLevelFor zoom)
  | _, _, _ => .reject400

/-- **C7 (counterexample).** A numerically out-of-range tile request is
*not* rejected: zoom 999 (far outside [0, 20]) with x = y = 0 passes the
`isNaN`-only check and reaches the storage-query phase, with the fallback
H3 level 8. -/
theorem tile_validation_cex :
    tileHandlerPhase1 (some 999) (some 0) (some 0) = .query 8
    ∧ tileHandlerPhase1 (some 999) (some 0) (some 0) ≠ .reject400 := by
  constructor <;> decide

/-- **C7 (amended).** The tile handler rejects a request with HTTP 400
before touching storage exactly when one of z, x, y is non-numeric
(`parseInt` yields `NaN`); numerically out-of-range values are not
rejected — an unmapped zoom falls back to H3 level 8 and the request
proceeds to the storage query. -/
theorem tile_validation_amended (z x y : Option ℤ) :
    tileHandlerPhase1 z x y = .reject400 ↔ (z = none ∨ x = none ∨ y = none) := by
  cases z <;> cases x <;> cases y <;> simp [tileHandlerPhase1]

/-- **C7 (amended, witness).** The amended validation rule evaluated at a
concrete request with a missing y. -/
theorem tile_validation_amended_witness :
    tileHandlerPhase1 (some 10) (some 512) none = .reject400 ↔
      ((some (10 : ℤ)) = none ∨ (some (512 : ℤ)) = none ∨ (none : Option ℤ) = none) :=
  tile_validation_amended (some 10) (some 512) none

/-! ### Geometry serialization of the tile handlers -/

/-- One row returned by the cell fetch (`heatmap_with_percentiles`). -/
structure TileRow where
  h3Index : String
  price : ℚ
  count : ℕ
  confidence : ℚ
  value : ℚ
deriving DecidableEq

/-- `const boundary = h3.cellToBoundary(row.h3_index, true);
const coordinates = boundary.map(([lat, lng]) => [lng, lat]);
coordinates.push(coordinates[0]);` — with `formatAsGeoJson = true` the H3
library returns the boundary as an already-closed loop of
(longitude, latitude) pairs; the destructuring parameter names
notwithstanding, the map swaps the two components of each pair — turning
the GeoJSON (lng, lat) vertices into (lat, lng) ones — and the push
appends the first vertex again. The model takes the GeoJSON-format
boundary as input and performs exactly the component swap and the append;
H3 boundaries are never empty, so `take 1` coincides with the code's
`push(coordinates[0])` on every reachable input. -/
def closeRing (boundary : List (ℚ × ℚ)) : List (ℚ × ℚ) :=
  (boundary.map (fun p => (p.2, p.1)))
    ++ (boundary.map (fun p => (p.2, p.1))).take 1

/-- One GeoJSON feature of the tile response: the row's properties and the
closed polygon ring built from the cell boundary. -/
structure Feature where
  props : TileRow
  ring : List (ℚ × ℚ)
deriving DecidableEq

def mkFeature (r : TileRow) (boundary : List (ℚ × ℚ)) : Feature :=
  ⟨r, closeRing boundary⟩

/-- The feature-building loop of the tile handler: for each fetched row,
`h3.cellToBoundary` inside `try { ... } catch { return null }`, then
`.filter(feature => feature !== null)`. `boundaryOf` abstracts
`h3.cellToBoundary`; `none` models a thrown geometry error. -/
def buildFeatures (boundaryOf : String → Option (List (ℚ × ℚ)))
    (rows : List TileRow) : List Feature :=
  rows.filterMap (fun r => (boundaryOf r.h3Index).map (mkFeature r))

/-- **C8.** Geometry-failure isolation: if boundary generation fails
exactly for cell `c` (and agrees with a non-failing generator `bOf2`
elsewhere), the produced feature collection is exactly the one built from
all rows except those of cell `c` — one cell's geometry error drops only
that cell's feature and never fails the rest of the response. -/
theorem geometry_failure_isolation (bOf bOf2 : String → Option (List (ℚ × ℚ)))
    (c : String) (hfail : bOf c = none)
    (hagree : ∀ i, i ≠ c → bOf i = bOf2 i) (rows : List TileRow) :
    buildFeatures bOf rows
      = buildFeatures bOf2 (rows.filter (fun r => r.h3Index ≠ c)) := by
  induction rows with
  | nil => rfl
  | cons r rs ih =>
    by_cases hc : r.h3Index = c
    · simp only [buildFeatures, List.filterMap_cons, List.filter_cons, hc,
        hfail, Option.map_none', decide_not, decide_True, Bool.not_true,
        Bool.false_eq_true, if_false] at ih ⊢
      simpa using ih
    · simp only [buildFeatures, List.filterMap_cons, List.filter_cons,
        hagree r.h3Index hc] at ih ⊢
      rw [if_pos (by simpa using hc)]
      cases hb : bOf2 r.h3Index <;>
        simp only [List.filterMap_cons, hb, Option.map_none', Option.map_some'] <;>
        simpa [buildFeatures] using ih

/-- **C8 (witness).** Isolation at a concrete generator failing only on
cell A, over a two-row fetch: the response equals the one for the B row
alone. -/
theorem geometry_failure_isolation_witness :
    buildFeatures (fun i => if i = "A" then none else some [((0 : ℚ), (0 : ℚ))])
        [⟨"A", 0, 0, 0, 0⟩, ⟨"B", 1, 1, 1, 1⟩]
      = buildFeatures (fun _ => some [((0 : ℚ), (0 : ℚ))])
          ([⟨"A", 0, 0, 0, 0⟩, ⟨"B", 1, 1, 1, 1⟩].filter
            (fun r => r.h3Index ≠ "A")) :=
  geometry_failure_isolation _ _ "A" (by simp)
    (fun i hi => by simp [hi]) _

/-- **C9.** Evaluation of the serialization at the failing input.
`h3.cellToBoundary(·, true)` returns the already-closed GeoJSON loop
`[(-1, 51), (2, 52), (-1, 51)]` whose vertices are (longitude, latitude)
pairs; the handler's swap-and-push serves the ring
`[(51, -1), (52, 2), (51, -1), (51, -1)]`: it is still explicitly
closed — first and last vertex coincide (doubly, in fact) — but every
served vertex is latitude-first, so the first served vertex `(51, -1)` is
not the (longitude, latitude) pair `(-1, 51)` of the cell boundary, as the
claim and the handler's own `application/geo+json` content type require. -/
theorem ring_latfirst_eval :
    closeRing [((-1 : ℚ), 51), (2, 52), (-1, 51)]
      = [((51 : ℚ), -1), (52, 2), (51, -1), (51, -1)]
    ∧ (closeRing [((-1 : ℚ), 51), (2, 52), (-1, 51)]).head?
      = (closeRing [((-1 : ℚ), 51), (2, 52), (-1, 51)]).getLast?
    ∧ ((51 : ℚ), (-1 : ℚ)) ≠ ((-1 : ℚ), (51 : ℚ)) := by
  refine ⟨?_, ?_, ?_⟩ <;> decide

end Weflut
